import Mathlib

/-!
Verification of the MMCI correction utility (src/main.py) against its
specification.  The Python source is shallowly embedded: JSON records are
structures holding exactly the fields the code reads, the shared mutable
dictionaries are association lists, HTTP traffic is abstracted into the
data the code extracts from it (status codes, entry lists, link arrays,
the total field of a count query), and Python exceptions are an explicit
error type threaded through Except or an Option Halt component.
-/

namespace MmciCorrection

/-- Decidable equality on Except, so that concrete runs of the embedded
functions can be checked by decide. -/
instance {ε α : Type} [DecidableEq ε] [DecidableEq α] : DecidableEq (Except ε α) := by
  intro a b
  cases a with
  | error e =>
    cases b with
    | error f =>
      exact if h : e = f then Decidable.isTrue (by rw [h]) else
        Decidable.isFalse (by intro hc; cases hc; exact h rfl)
    | ok y => exact Decidable.isFalse (by intro hc; cases hc)
  | ok x =>
    cases b with
    | error f => exact Decidable.isFalse (by intro hc; cases hc)
    | ok y =>
      exact if h : x = y then Decidable.isTrue (by rw [h]) else
        Decidable.isFalse (by intro hc; cases hc; exact h rfl)

/-- Faults a statement of the Python source can raise.  conn models
requests.exceptions.ConnectionError, which the top level handlers catch;
typeError, keyError and indexError model the built-in Python exceptions,
which nothing in the source catches except the TypeError handler inside
is_resource_present_in_blaze. -/
inductive Halt where
  | conn
  | typeError
  | keyError (key : String)
  | indexError
  deriving DecidableEq

/-- One element of a records extension array, holding the two fields the
source reads: extension["url"] and extension["valueReference"]["reference"]
(lines 152 and 159-162 of src/main.py). -/
structure Extension where
  url : String
  reference : String
  deriving DecidableEq

/-- The resource["type"] JSON object; the source only ever reads
resource["type"]["coding"][0]["code"] from it (lines 158, 174, 177). -/
structure TypeConcept where
  code : String
  deriving DecidableEq

/-- A fetched record (a Specimen): resource["id"], resource["type"], and the
optional resource["extension"] array (absent key modelled as none). -/
structure Resource where
  id : String
  type : TypeConcept
  extension : Option (List Extension)
  deriving DecidableEq

/-- Lookup in a Python dict modelled as an association list: d[k] returns
the value stored at k, raising KeyError when k is absent (the raising
variant is lookupOrKeyError below). -/
def lookupStr : List (String × String) → String → Option String
  | [], _ => none
  | (k, v) :: rest, key => if k = key then some v else lookupStr rest key

/-- TYPE_TO_COLLECTION from src/main.py lines 42-50. -/
def TYPE_TO_COLLECTION : List (String × String) :=
  [("tissue-frozen", "bbmri-eric:ID:CZ_MMCI:collection:Cells"),
   ("tissue-other", "bbmri-eric:ID:CZ_MMCI:collection:Cells"),
   ("peripheral-blood-cells-vital", "bbmri-eric:ID:CZ_MMCI:collection:Cells"),
   ("blood-plasma", "bbmri-eric:ID:CZ_MMCI:collection:Blood_samples"),
   ("liquid-other", "bbmri-eric:ID:CZ_MMCI:collection:Blood_samples"),
   ("serum", "bbmri-eric:ID:CZ_MMCI:collection:Blood_samples"),
   ("dna", "bbmri-eric:ID:CZ_MMCI:collection:DNA")]

/-- The fixed custodian extension URL of src/main.py line 152. -/
def custodianUrl : String := "https://fhir.bbmri.de/StructureDefinition/Custodian"

/-- The update loop of src/main.py lines 151-164 over resource["extension"]:
for every element whose url is the custodian URL it recomputes the expected
reference from TYPE_TO_COLLECTION and the runtime ORGANIZATION_TO_ID map
(parameter orgMap), overwrites a differing reference and records the update.
Returns the rewritten list together with the collection_present and updated
flags; a missing key in either table raises KeyError (dict subscript). -/
def fixExtensions (orgMap : List (String × String)) (code : String) :
    List Extension → Except Halt (List Extension × Bool × Bool)
  | [] => Except.ok ([], false, false)
  | e :: rest =>
    if e.url = custodianUrl then
      match lookupStr TYPE_TO_COLLECTION code with
      | none => Except.error (Halt.keyError code)
      | some collectionId =>
        match lookupStr orgMap collectionId with
        | none => Except.error (Halt.keyError collectionId)
        | some orgId =>
          match fixExtensions orgMap code rest with
          | Except.error h => Except.error h
          | Except.ok (restFixed, _, updRest) =>
            if e.reference = "Organization/" ++ orgId then
              Except.ok (e :: restFixed, true, updRest)
            else
              Except.ok (Extension.mk e.url ("Organization/" ++ orgId) :: restFixed, true, true)
    else
      match fixExtensions orgMap code rest with
      | Except.error h => Except.error h
      | Except.ok (restFixed, colRest, updRest) =>
        Except.ok (e :: restFixed, colRest, updRest)

/-- Processing of one record by update_resources, src/main.py lines 144-181.
Returns the record as it stands afterwards and the updated flag that decides
whether a PUT is issued (line 182).  When the extension key is absent the
source reaches line 171, resource["type"] not in TYPE_TO_COLLECTION: the
membership test hashes its operand, and resource["type"] is a JSON object (a
dict, subscripted at lines 158, 174 and 177), which Python cannot hash, so
the line raises TypeError and lines 172-175 never run.  When the extension
array is present but holds no custodian entry, the source takes line 177,
looking the type code up in TYPE_TO_COLLECTION (KeyError on a miss) and then
in ORGANIZATION_TO_ID (line 179, KeyError on a miss), and appends the new
custodian extension. -/
def processResource (orgMap : List (String × String)) (r : Resource) :
    Except Halt (Resource × Bool) :=
  match r.extension with
  | none => Except.error Halt.typeError
  | some exts =>
    match fixExtensions orgMap r.type.code exts with
    | Except.error h => Except.error h
    | Except.ok (extsFixed, collectionPresent, updated) =>
      if collectionPresent then
        Except.ok (Resource.mk r.id r.type (some extsFixed), updated)
      else
        match lookupStr TYPE_TO_COLLECTION r.type.code with
        | none => Except.error (Halt.keyError r.type.code)
        | some collectionId =>
          match lookupStr orgMap collectionId with
          | none => Except.error (Halt.keyError collectionId)
          | some orgId =>
            Except.ok (Resource.mk r.id r.type
              (some (extsFixed ++ [Extension.mk custodianUrl ("Organization/" ++ orgId)])), true)

/-- The per-page entry loop of update_resources (src/main.py lines 143-185).
putFail says which PUT requests raise ConnectionError (by resource id).
Returns the list of records for which a PUT was issued, in order, and the
first fault raised, if any; a fault stops the loop, leaving the remaining
entries unprocessed. -/
def processEntries (orgMap : List (String × String)) (putFail : String → Bool) :
    List Resource → List Resource × Option Halt
  | [] => ([], none)
  | r :: rest =>
    match processResource orgMap r with
    | Except.error h => ([], some h)
    | Except.ok (rNew, updated) =>
      if updated then
        if putFail rNew.id then ([rNew], some Halt.conn)
        else
          match processEntries orgMap putFail rest with
          | (puts, h) => (rNew :: puts, h)
      else processEntries orgMap putFail rest

/-- One element of the pages link array (src/main.py line 186). -/
structure Link where
  relation : String
  url : String
  deriving DecidableEq

/-- One page of the paginated GET response: the status code the while loop
tests (line 141), the entry array (line 143) and the link array (line 186). -/
structure Page where
  status : Nat
  entry : List Resource
  link : List Link
  deriving DecidableEq

/-- Models url.find("/fhir") != -1 of src/main.py lines 189-190: splitOn
yields more than one part exactly when the marker occurs in the string. -/
def containsFhirMarker (s : String) : Bool :=
  2 ≤ (s.splitOn "/fhir").length

/-- The continuation test of src/main.py lines 187-191 on the last link
entry: relation equals next and the URL holds the /fhir marker. -/
def isNextLink (l : Link) : Bool :=
  l.relation = "next" && containsFhirMarker l.url

/-- Whether a page makes update_resources fetch a further page: the last
element of its link array exists and passes isNextLink. -/
def pageHasNext (p : Page) : Bool :=
  match p.link.getLast? with
  | some l => isNextLink l
  | none => false

/-- The page loop of update_resources (src/main.py lines 141-193) over the
sequence of GET results the store returns: none in the input list means that
GET raised ConnectionError.  Returns the pages whose entries the loop
processed, in order, the PUT requests issued, and the first fault, if any.
A page whose status is not 200 ends the while loop; an empty link array
makes line 186 raise IndexError; a last link failing isNextLink ends the
loop by break. -/
def runPages (orgMap : List (String × String)) (putFail : String → Bool) :
    List (Option Page) → List Page × List Resource × Option Halt
  | [] => ([], [], none)
  | none :: _ => ([], [], some Halt.conn)
  | some p :: rest =>
    if p.status = 200 then
      match processEntries orgMap putFail p.entry with
      | (puts, some h) => ([p], puts, some h)
      | (puts, none) =>
        match p.link.getLast? with
        | none => ([p], puts, some Halt.indexError)
        | some l =>
          if isNextLink l then
            match runPages orgMap putFail rest with
            | (ps, puts2, h) => (p :: ps, puts ++ puts2, h)
          else ([p], puts, none)
    else ([], [], none)

/-- How a call of update_resources ends: a normal return (the fall-through
return or the except requests.exceptions.ConnectionError handler of
src/main.py lines 195-197), or an uncaught fault propagating out. -/
inductive RunOutcome where
  | normal
  | fault (h : Halt)
  deriving DecidableEq

/-- update_resources of src/main.py lines 137-197: the page loop wrapped in
the try block whose only handler catches ConnectionError.  Yields the
outcome together with the processed pages and issued PUTs. -/
def update_resources (orgMap : List (String × String)) (putFail : String → Bool)
    (pages : List (Option Page)) : RunOutcome × List Page × List Resource :=
  match runPages orgMap putFail pages with
  | (ps, puts, none) => (RunOutcome.normal, ps, puts)
  | (ps, puts, some Halt.conn) => (RunOutcome.normal, ps, puts)
  | (ps, puts, some h) => (RunOutcome.fault h, ps, puts)

/-- The pages update_resources processes when run against the given page
sequence with every GET succeeding. -/
def processedPages (orgMap : List (String × String)) (putFail : String → Bool)
    (ps : List Page) : List Page :=
  (runPages orgMap putFail (ps.map Option.some)).1

/-- One entry of the static COLLECTIONS_TO_ADD catalog, src/main.py
lines 14-40. -/
structure CollectionDescriptor where
  identifier : String
  name : String
  acronym : String
  deriving DecidableEq

/-- COLLECTIONS_TO_ADD from src/main.py lines 14-40. -/
def COLLECTIONS_TO_ADD : List CollectionDescriptor :=
  [CollectionDescriptor.mk "bbmri-eric:ID:CZ_MMCI:collection:Blood_samples" "Blood samples" "BS",
   CollectionDescriptor.mk "bbmri-eric:ID:CZ_MMCI:collection:Cells" "Cells" "",
   CollectionDescriptor.mk "bbmri-eric:ID:CZ_MMCI:collection:DNA" "DNA" "DNA",
   CollectionDescriptor.mk "bbmri-eric:ID:CZ_MMCI:collection:Other" "Other" "",
   CollectionDescriptor.mk "bbmri-eric:ID:CZ_MMCI:collection:Tissue" "Tissue" ""]

/-- is_resource_present_in_blaze, src/main.py lines 90-106, abstracted over
the total field of the count query response: json().get("total") yields None
when the field is absent (modelled as none), and comparing None with 0
raises TypeError, which the except TypeError handler turns into False. -/
def is_resource_present_in_blaze (total : Option Int) : Bool :=
  match total with
  | some count => decide (0 < count)
  | none => false

/-- populate_collections, src/main.py lines 109-121, abstracted over the
store: total maps a business identifier to the total field the count query
for it returns.  The result lists the identifiers of the collections for
which a POST is issued, in catalog order: exactly those the presence check
reports absent. -/
def populate_collections (total : String → Option Int) : List String :=
  COLLECTIONS_TO_ADD.filterMap fun c =>
    if is_resource_present_in_blaze (total c.identifier) then none
    else some c.identifier

/-- Assignment d[k] = v into a Python dict modelled as an association list:
an existing entry for k is overwritten in place, otherwise the pair is
appended. -/
def dictInsert (m : List (String × String)) (k v : String) : List (String × String) :=
  if m.any (fun p => p.1 = k) then
    m.map (fun p => if p.1 = k then (k, v) else p)
  else m ++ [(k, v)]

/-- An organization record as read by populate_collections_ids, src/main.py
lines 128-131: the values of its identifier array and its store-assigned
id. -/
structure OrgResource where
  identifier : List String
  id : String
  deriving DecidableEq

/-- The loop body of populate_collections_ids, src/main.py lines 128-131:
for each entry, insert identifier[0].value mapped to the record id into
ORGANIZATION_TO_ID (parameter m); subscripting an empty identifier array
with [0] raises IndexError. -/
def populate_collections_ids : List OrgResource → List (String × String) →
    Except Halt (List (String × String))
  | [], m => Except.ok m
  | r :: rest, m =>
    match r.identifier.head? with
    | none => Except.error Halt.indexError
    | some k => populate_collections_ids rest (dictInsert m k r.id)

/-- The while loop of is_endpoint_available, src/main.py lines 72-87:
succ i tells whether attempt i (counting from 0) succeeds, that is, the GET
returns and raise_for_status passes; any failure is a RequestException the
except handler absorbs before retrying. -/
def probe_loop (succ : Nat → Bool) (attempts maxAttempts : Nat) : Bool :=
  if attempts < maxAttempts then
    if succ attempts then true
    else probe_loop succ (attempts + 1) maxAttempts
  else false
termination_by maxAttempts - attempts

/-- is_endpoint_available, src/main.py lines 64-87, abstracted over the
success of each attempt.  The function is total: every exception the loop
body can raise is a RequestException and is caught, so the probe always
returns a Boolean. -/
def is_endpoint_available (succ : Nat → Bool) (maxAttempts : Nat) : Bool :=
  probe_loop succ 0 maxAttempts

/-- What the extension loop does to a single element when the expected
reference is target: a custodian entry ends up referencing target, any other
entry is untouched. -/
def fixOne (target : String) (e : Extension) : Extension :=
  if e.url = custodianUrl then Extension.mk e.url target else e

/-- Number of custodian extensions in a list. -/
def custodianCount (exts : List Extension) : Nat :=
  (exts.filter (fun e => e.url == custodianUrl)).length

theorem fixExtensions_eq (orgMap : List (String × String)) (code collectionId orgId : String)
    (hc : lookupStr TYPE_TO_COLLECTION code = some collectionId)
    (ho : lookupStr orgMap collectionId = some orgId) (exts : List Extension) :
    fixExtensions orgMap code exts =
      Except.ok (exts.map (fixOne ("Organization/" ++ orgId)),
        exts.any (fun e => e.url == custodianUrl),
        exts.any (fun e => e.url == custodianUrl && e.reference != "Organization/" ++ orgId)) := by
  induction exts with
  | nil => rfl
  | cons e rest ih =>
    obtain ⟨u, refv⟩ := e
    by_cases hu : u = custodianUrl
    · subst hu
      by_cases href : refv = "Organization/" ++ orgId
      · subst href
        simp [fixExtensions, hc, ho, ih, fixOne]
      · simp [fixExtensions, hc, ho, ih, fixOne, href]
    · simp [fixExtensions, hu, ih, fixOne]

theorem map_fixOne_of_no_custodian (t : String) (exts : List Extension)
    (h : exts.any (fun e => e.url == custodianUrl) = false) :
    exts.map (fixOne t) = exts := by
  induction exts with
  | nil => rfl
  | cons e rest ih =>
    simp only [List.any_cons, Bool.or_eq_false_iff] at h
    simp [fixOne, ih h.2, show ¬e.url = custodianUrl by simpa using h.1]

theorem processResource_ok (orgMap : List (String × String)) (r : Resource)
    (exts : List Extension) (collectionId orgId : String)
    (hext : r.extension = some exts)
    (hc : lookupStr TYPE_TO_COLLECTION r.type.code = some collectionId)
    (ho : lookupStr orgMap collectionId = some orgId) :
    processResource orgMap r =
      if exts.any (fun e => e.url == custodianUrl) then
        Except.ok (Resource.mk r.id r.type
            (some (exts.map (fixOne ("Organization/" ++ orgId)))),
          exts.any (fun e => e.url == custodianUrl && e.reference != "Organization/" ++ orgId))
      else
        Except.ok (Resource.mk r.id r.type
          (some (exts ++ [Extension.mk custodianUrl ("Organization/" ++ orgId)])), true) := by
  by_cases hany : exts.any (fun e => e.url == custodianUrl) = true
  · simp [processResource, hext, fixExtensions_eq orgMap r.type.code collectionId orgId hc ho,
      hany]
  · simp only [Bool.not_eq_true] at hany
    simp [processResource, hext, fixExtensions_eq orgMap r.type.code collectionId orgId hc ho,
      hany, hc, ho, map_fixOne_of_no_custodian _ _ hany]

theorem custodianCount_map_fixOne (t : String) (exts : List Extension) :
    custodianCount (exts.map (fixOne t)) = custodianCount exts := by
  induction exts with
  | nil => rfl
  | cons e rest ih =>
    by_cases hu : e.url = custodianUrl
    · simp only [custodianCount, List.map_cons, List.filter_cons] at ih ⊢
      simp [fixOne, hu]
      simpa using ih
    · simp only [custodianCount, List.map_cons, List.filter_cons] at ih ⊢
      simp [fixOne, hu]
      simpa using ih

theorem custodianCount_pos_of_any (exts : List Extension)
    (h : exts.any (fun e => e.url == custodianUrl) = true) :
    1 ≤ custodianCount exts := by
  rcases List.any_eq_true.mp h with ⟨e, he, hp⟩
  have : e ∈ exts.filter (fun e => e.url == custodianUrl) :=
    List.mem_filter.mpr ⟨he, hp⟩
  have := List.length_pos.mpr (List.ne_nil_of_mem this)
  simpa [custodianCount] using this

theorem custodianCount_eq_zero_of_not_any (exts : List Extension)
    (h : exts.any (fun e => e.url == custodianUrl) = false) :
    custodianCount exts = 0 := by
  induction exts with
  | nil => rfl
  | cons e rest ih =>
    simp only [List.any_cons, Bool.or_eq_false_iff] at h
    have hpe : (e.url == custodianUrl) = false := h.1
    simp only [custodianCount, List.filter_cons, hpe, Bool.false_eq_true, if_false]
    simpa [custodianCount] using ih h.2

theorem mem_map_fixOne_custodian (t : String) (exts : List Extension) :
    ∀ e ∈ exts.map (fixOne t), e.url = custodianUrl → e.reference = t := by
  intro e he hu
  rcases List.mem_map.mp he with ⟨x, _, hx⟩
  by_cases hxu : x.url = custodianUrl
  · rw [← hx]; simp [fixOne, hxu]
  · exfalso
    rw [← hx] at hu
    simp only [fixOne, if_neg hxu] at hu
    exact hxu hu

/-- C1: the spec expects a dna record with no extension list to receive one
new custodian extension referencing the DNA collection organization; instead
line 171 of src/main.py, resource["type"] not in TYPE_TO_COLLECTION, hashes
the type JSON object, which Python cannot hash, raising an uncaught
TypeError, so the record is never updated and the run aborts. -/
theorem c1_dna_no_extension_raises :
    processResource [("bbmri-eric:ID:CZ_MMCI:collection:DNA", "org-dna")]
      (Resource.mk "s1" (TypeConcept.mk "dna") none) = Except.error Halt.typeError
    ∧ update_resources [("bbmri-eric:ID:CZ_MMCI:collection:DNA", "org-dna")] (fun _ => false)
        [some (Page.mk 200 [Resource.mk "s1" (TypeConcept.mk "dna") none]
          [Link.mk "self" "http://x/fhir/Specimen"])] =
      (RunOutcome.fault Halt.typeError,
       [Page.mk 200 [Resource.mk "s1" (TypeConcept.mk "dna") none]
         [Link.mk "self" "http://x/fhir/Specimen"]], []) := by
  constructor
  · rfl
  · rfl

/-- C4: the spec expects a record with an unmapped type code and no
extension list to receive a custodian extension referencing the Other
fallback collection; instead line 171 of src/main.py raises an uncaught
TypeError (the type field is a JSON object and cannot be hashed for the
membership test), so the fallback branch in lines 172-175 is unreachable. -/
theorem c4_unmapped_no_extension_raises :
    processResource [("bbmri-eric:ID:CZ_MMCI:collection:Other", "org-other")]
      (Resource.mk "s2" (TypeConcept.mk "xenograft") none) = Except.error Halt.typeError
    ∧ update_resources [("bbmri-eric:ID:CZ_MMCI:collection:Other", "org-other")] (fun _ => false)
        [some (Page.mk 200 [Resource.mk "s2" (TypeConcept.mk "xenograft") none]
          [Link.mk "self" "http://x/fhir/Specimen"])] =
      (RunOutcome.fault Halt.typeError,
       [Page.mk 200 [Resource.mk "s2" (TypeConcept.mk "xenograft") none]
         [Link.mk "self" "http://x/fhir/Specimen"]], []) := by
  constructor
  · rfl
  · rfl

theorem custodianCount_append_one (exts : List Extension) (t : String) :
    custodianCount (exts ++ [Extension.mk custodianUrl t]) = custodianCount exts + 1 := by
  simp [custodianCount, List.filter_append, List.filter_cons]

theorem map_fixOne_of_all_fixed (t : String) (exts : List Extension)
    (h : exts.any (fun e => e.url == custodianUrl && e.reference != t) = false) :
    exts.map (fixOne t) = exts := by
  induction exts with
  | nil => rfl
  | cons e rest ih =>
    simp only [List.any_cons, Bool.or_eq_false_iff] at h
    have h2 := ih h.2
    by_cases hu : e.url = custodianUrl
    · have hre : e.reference = t := by
        have h1 := h.1
        simp [hu] at h1
        exact h1
      have hfix : fixOne t e = e := by
        cases e with
        | mk u rv => simp_all [fixOne]
      simp only [List.map_cons, hfix, h2]
    · simp [fixOne, hu, h2]

theorem any_eq_false_mem (exts : List Extension)
    (h : exts.any (fun e => e.url == custodianUrl) = false) :
    ∀ e ∈ exts, ¬e.url = custodianUrl := by
  intro e he
  intro hc
  have hp : (e.url == custodianUrl) = true := by
    rw [hc]
    exact beq_self_eq_true custodianUrl
  have hex : ∃ x ∈ exts, (fun e => e.url == custodianUrl) x = true := ⟨e, he, hp⟩
  have := List.any_eq_true.mpr hex
  rw [h] at this
  exact Bool.false_ne_true this

/-- C2 counterexample: a dna record carrying two custodian extensions ends
processing with two custodian extensions, not exactly one; the loop in
lines 151-164 of src/main.py rewrites every custodian entry and never
removes duplicates. -/
theorem c2_two_custodians_counterexample :
    processResource [("bbmri-eric:ID:CZ_MMCI:collection:DNA", "org-dna")]
      (Resource.mk "s1" (TypeConcept.mk "dna")
        (some [Extension.mk custodianUrl "Organization/a",
               Extension.mk custodianUrl "Organization/b"])) =
      Except.ok (Resource.mk "s1" (TypeConcept.mk "dna")
        (some [Extension.mk custodianUrl "Organization/org-dna",
               Extension.mk custodianUrl "Organization/org-dna"]), true)
    ∧ custodianCount [Extension.mk custodianUrl "Organization/org-dna",
        Extension.mk custodianUrl "Organization/org-dna"] ≠ 1 := by
  constructor
  · rfl
  · decide

/-- C2 amended: for every record whose extension list is present and whose
type code and mapped collection resolve through the two tables, processing
leaves at least one custodian extension, every custodian extension
references the organization of the mapped collection, and when the record
held at most one custodian extension beforehand it ends with exactly one.
The claim as stated fails on records with several custodian extensions,
which keep all of them, and on records with no extension list, which raise
TypeError. -/
theorem c2_amended_custodian_invariant (orgMap : List (String × String)) (r : Resource)
    (exts : List Extension) (collectionId orgId : String)
    (hext : r.extension = some exts)
    (hc : lookupStr TYPE_TO_COLLECTION r.type.code = some collectionId)
    (ho : lookupStr orgMap collectionId = some orgId) :
    ∃ rNew updated extsNew,
      processResource orgMap r = Except.ok (rNew, updated)
      ∧ rNew.extension = some extsNew
      ∧ 1 ≤ custodianCount extsNew
      ∧ (∀ e ∈ extsNew, e.url = custodianUrl → e.reference = "Organization/" ++ orgId)
      ∧ (custodianCount exts ≤ 1 → custodianCount extsNew = 1) := by
  rw [processResource_ok orgMap r exts collectionId orgId hext hc ho]
  cases hany : exts.any (fun e => e.url == custodianUrl) with
  | true =>
    simp only [hany, if_true]
    refine ⟨_, _, _, rfl, rfl, ?_, ?_, ?_⟩
    · rw [custodianCount_map_fixOne]
      exact custodianCount_pos_of_any exts hany
    · exact mem_map_fixOne_custodian _ exts
    · intro hle
      rw [custodianCount_map_fixOne]
      have := custodianCount_pos_of_any exts hany
      omega
  | false =>
    simp only [hany, Bool.false_eq_true, if_false]
    refine ⟨_, _, _, rfl, rfl, ?_, ?_, ?_⟩
    · rw [custodianCount_append_one, custodianCount_eq_zero_of_not_any exts hany]
    · intro e he hu
      rcases List.mem_append.mp he with hin | hin
      · exact absurd hu (any_eq_false_mem exts hany e hin)
      · rcases List.mem_singleton.mp hin with rfl
        rfl
    · intro _
      rw [custodianCount_append_one, custodianCount_eq_zero_of_not_any exts hany]

/-- C2 witness: a dna record with one wrong custodian extension, processed
against a map holding the DNA collection, ends with exactly one custodian
extension referencing that organization. -/
theorem c2_amended_witness :
    (Resource.mk "s1" (TypeConcept.mk "dna")
        (some [Extension.mk custodianUrl "Organization/old"])).extension =
      some [Extension.mk custodianUrl "Organization/old"]
    ∧ lookupStr TYPE_TO_COLLECTION
        (Resource.mk "s1" (TypeConcept.mk "dna")
          (some [Extension.mk custodianUrl "Organization/old"])).type.code =
        some "bbmri-eric:ID:CZ_MMCI:collection:DNA"
    ∧ lookupStr [("bbmri-eric:ID:CZ_MMCI:collection:DNA", "org-dna")]
        "bbmri-eric:ID:CZ_MMCI:collection:DNA" = some "org-dna"
    ∧ (∃ rNew updated extsNew,
        processResource [("bbmri-eric:ID:CZ_MMCI:collection:DNA", "org-dna")]
            (Resource.mk "s1" (TypeConcept.mk "dna")
              (some [Extension.mk custodianUrl "Organization/old"])) =
          Except.ok (rNew, updated)
        ∧ rNew.extension = some extsNew
        ∧ 1 ≤ custodianCount extsNew
        ∧ (∀ e ∈ extsNew, e.url = custodianUrl → e.reference = "Organization/" ++ "org-dna")
        ∧ (custodianCount [Extension.mk custodianUrl "Organization/old"] ≤ 1 →
            custodianCount extsNew = 1)) :=
  ⟨rfl, by decide, by decide,
    c2_amended_custodian_invariant [("bbmri-eric:ID:CZ_MMCI:collection:DNA", "org-dna")]
      (Resource.mk "s1" (TypeConcept.mk "dna")
        (some [Extension.mk custodianUrl "Organization/old"]))
      [Extension.mk custodianUrl "Organization/old"]
      "bbmri-eric:ID:CZ_MMCI:collection:DNA" "org-dna" rfl (by decide) (by decide)⟩

/-- C3: for a record already carrying at least one custodian extension and
whose table lookups resolve, every custodian extension ends up referencing
Organization/ followed by the mapped organization id; the updated flag that
triggers the PUT of src/main.py line 183 is set exactly when some custodian
reference differed, so an already correct record leaves the list unchanged
and issues no PUT, as the processEntries equation shows. -/
theorem c3_existing_custodian (orgMap : List (String × String)) (r : Resource)
    (exts : List Extension) (collectionId orgId : String)
    (hext : r.extension = some exts)
    (hcust : exts.any (fun e => e.url == custodianUrl) = true)
    (hc : lookupStr TYPE_TO_COLLECTION r.type.code = some collectionId)
    (ho : lookupStr orgMap collectionId = some orgId) :
    processResource orgMap r =
      Except.ok (Resource.mk r.id r.type
          (some (exts.map (fixOne ("Organization/" ++ orgId)))),
        exts.any (fun e => e.url == custodianUrl && e.reference != "Organization/" ++ orgId))
    ∧ (∀ e ∈ exts.map (fixOne ("Organization/" ++ orgId)),
        e.url = custodianUrl → e.reference = "Organization/" ++ orgId)
    ∧ ((exts.any
          (fun e => e.url == custodianUrl && e.reference != "Organization/" ++ orgId)) = false →
        exts.map (fixOne ("Organization/" ++ orgId)) = exts)
    ∧ processEntries orgMap (fun _ => false) [r] =
        (if exts.any (fun e => e.url == custodianUrl && e.reference != "Organization/" ++ orgId)
         then [Resource.mk r.id r.type (some (exts.map (fixOne ("Organization/" ++ orgId))))]
         else [], none) := by
  have hpr := processResource_ok orgMap r exts collectionId orgId hext hc ho
  rw [if_pos hcust] at hpr
  refine ⟨hpr, mem_map_fixOne_custodian _ exts, map_fixOne_of_all_fixed _ exts, ?_⟩
  cases hupd : exts.any
      (fun e => e.url == custodianUrl && e.reference != "Organization/" ++ orgId) with
  | true =>
    rw [hupd] at hpr
    simp [processEntries, hpr]
  | false =>
    rw [hupd] at hpr
    simp [processEntries, hpr]

/-- C3 witness: a record whose single custodian extension is wrong gets it
overwritten and a PUT issued, while a record whose custodian extension is
already correct is left alone with no PUT. -/
theorem c3_existing_custodian_witness :
    (Resource.mk "s1" (TypeConcept.mk "dna")
        (some [Extension.mk custodianUrl "Organization/old"])).extension =
      some [Extension.mk custodianUrl "Organization/old"]
    ∧ ([Extension.mk custodianUrl "Organization/old"].any
        (fun e => e.url == custodianUrl)) = true
    ∧ processEntries [("bbmri-eric:ID:CZ_MMCI:collection:DNA", "org-dna")] (fun _ => false)
        [Resource.mk "s1" (TypeConcept.mk "dna")
          (some [Extension.mk custodianUrl "Organization/old"])] =
        (if [Extension.mk custodianUrl "Organization/old"].any
              (fun e => e.url == custodianUrl &&
                e.reference != "Organization/" ++ "org-dna")
         then [Resource.mk "s1" (TypeConcept.mk "dna")
            (some ([Extension.mk custodianUrl "Organization/old"].map
              (fixOne ("Organization/" ++ "org-dna"))))]
         else [], none)
    ∧ processEntries [("bbmri-eric:ID:CZ_MMCI:collection:DNA", "org-dna")] (fun _ => false)
        [Resource.mk "s2" (TypeConcept.mk "dna")
          (some [Extension.mk custodianUrl "Organization/org-dna"])] = ([], none) :=
  ⟨rfl, by decide,
    (c3_existing_custodian [("bbmri-eric:ID:CZ_MMCI:collection:DNA", "org-dna")]
      (Resource.mk "s1" (TypeConcept.mk "dna")
        (some [Extension.mk custodianUrl "Organization/old"]))
      [Extension.mk custodianUrl "Organization/old"]
      "bbmri-eric:ID:CZ_MMCI:collection:DNA" "org-dna"
      rfl (by decide) (by decide) (by decide)).2.2.2,
    by decide⟩

theorem runPages_cons_not200 (orgMap : List (String × String)) (putFail : String → Bool)
    (p : Page) (rest : List (Option Page)) (hst : ¬p.status = 200) :
    runPages orgMap putFail (Option.some p :: rest) = ([], [], none) := by
  simp only [runPages, if_neg hst]

theorem runPages_cons_ok (orgMap : List (String × String)) (putFail : String → Bool)
    (p : Page) (rest : List (Option Page)) (l : Link)
    (hst : p.status = 200)
    (hpe : (processEntries orgMap putFail p.entry).2 = none)
    (hl : p.link.getLast? = some l) :
    runPages orgMap putFail (Option.some p :: rest) =
      if isNextLink l then
        (p :: (runPages orgMap putFail rest).1,
         (processEntries orgMap putFail p.entry).1 ++ (runPages orgMap putFail rest).2.1,
         (runPages orgMap putFail rest).2.2)
      else ([p], (processEntries orgMap putFail p.entry).1, none) := by
  obtain ⟨puts, hpep⟩ : ∃ puts, processEntries orgMap putFail p.entry = (puts, none) :=
    ⟨(processEntries orgMap putFail p.entry).1, by rw [← hpe]⟩
  simp only [runPages, if_pos hst, hpep, hl]

theorem runPages_spec_aux (orgMap : List (String × String)) (putFail : String → Bool) :
    ∀ ps : List Page,
    (∀ p ∈ ps, (processEntries orgMap putFail p.entry).2 = none) →
    (∀ p ∈ ps, p.link ≠ []) →
    (runPages orgMap putFail (ps.map Option.some)).2.2 = none
    ∧ (runPages orgMap putFail (ps.map Option.some)).1 <+: ps
    ∧ (∀ q ∈ (runPages orgMap putFail (ps.map Option.some)).1, q.status = 200)
    ∧ List.Chain' (fun a _ => pageHasNext a = true)
        (runPages orgMap putFail (ps.map Option.some)).1
    ∧ ((runPages orgMap putFail (ps.map Option.some)).1.length < ps.length →
        (((runPages orgMap putFail (ps.map Option.some)).1 = [] ∧
           ∃ p0, ps.head? = some p0 ∧ p0.status ≠ 200)
         ∨ (∃ q, (runPages orgMap putFail (ps.map Option.some)).1.getLast? = some q ∧
             (pageHasNext q = false
              ∨ ∃ pn, ps[(runPages orgMap putFail (ps.map Option.some)).1.length]? = some pn ∧
                  pn.status ≠ 200))))
  | [], _, _ => by
    refine ⟨rfl, List.nil_prefix, by simp [runPages], List.chain'_nil, ?_⟩
    intro h
    simp [runPages] at h
  | p :: rest, hok, hlink => by
    have hok' : ∀ q ∈ rest, (processEntries orgMap putFail q.entry).2 = none :=
      fun q hq => hok q (List.mem_cons_of_mem p hq)
    have hlink' : ∀ q ∈ rest, q.link ≠ [] :=
      fun q hq => hlink q (List.mem_cons_of_mem p hq)
    by_cases hst : p.status = 200
    · have hpe := hok p (List.mem_cons_self p rest)
      obtain ⟨l, hl⟩ : ∃ l, p.link.getLast? = some l := by
        cases hgl : p.link.getLast? with
        | none =>
          exact absurd (List.getLast?_eq_none_iff.mp hgl) (hlink p (List.mem_cons_self p rest))
        | some l => exact ⟨l, rfl⟩
      rw [List.map_cons, runPages_cons_ok orgMap putFail p _ l hst hpe hl]
      have IH := runPages_spec_aux orgMap putFail rest hok' hlink'
      obtain ⟨ih1, ih2, ih3, ih4, ih5⟩ := IH
      cases hnl : isNextLink l with
      | false =>
        rw [if_neg (by simp [hnl])]
        refine ⟨rfl, ⟨rest, rfl⟩, ?_, List.chain'_singleton p, ?_⟩
        · intro q hq
          rcases List.mem_singleton.mp hq with rfl
          exact hst
        · intro _
          refine Or.inr ⟨p, rfl, Or.inl ?_⟩
          simp [pageHasNext, hl, hnl]
      | true =>
        rw [if_pos (by simp [hnl])]
        refine ⟨ih1, ?_, ?_, ?_, ?_⟩
        · obtain ⟨t, ht⟩ := ih2
          exact ⟨t, by rw [List.cons_append, ht]⟩
        · intro q hq
          rcases List.mem_cons.mp hq with rfl | hq2
          · exact hst
          · exact ih3 q hq2
        · refine List.chain'_cons'.mpr ⟨?_, ih4⟩
          intro b _
          simp [pageHasNext, hl, hnl]
        · intro hlen
          have hlen' : (runPages orgMap putFail (rest.map Option.some)).1.length
              < rest.length := by
            simpa using hlen
          rcases ih5 hlen' with ⟨hRnil, p0, hp0, hp0s⟩ | ⟨q, hq, hcase⟩
          · refine Or.inr ⟨p, ?_, Or.inr ⟨p0, ?_, hp0s⟩⟩
            · rw [hRnil]
              rfl
            · rw [hRnil]
              simp only [List.length_cons, List.length_nil, List.getElem?_cons_succ]
              rw [← List.head?_eq_getElem?]
              exact hp0
          · refine Or.inr ⟨q, ?_, ?_⟩
            · rw [List.getLast?_cons, hq]
              rfl
            · rcases hcase with hfalse | ⟨pn, hpn, hpns⟩
              · exact Or.inl hfalse
              · refine Or.inr ⟨pn, ?_, hpns⟩
                simpa using hpn
    · rw [List.map_cons, runPages_cons_not200 orgMap putFail p _ hst]
      refine ⟨rfl, List.nil_prefix, by simp, List.chain'_nil, ?_⟩
      intro _
      exact Or.inl ⟨rfl, p, rfl, hst⟩

/-- C5: run against a stream of pages with every GET succeeding and every
record processing without fault, update_resources processes a prefix of the
page sequence in order (so each page is requested and processed at most
once), processes only pages whose status is 200, continues past a processed
page exactly when the last entry of its link array has relation next and a
URL holding the /fhir marker, and when it stops before the end of the
sequence the stop is explained by the head page failing the status test, by
the last processed page failing the next-link test, or by the following
fetched page failing the status test. -/
theorem c5_pagination (orgMap : List (String × String)) (putFail : String → Bool)
    (ps : List Page)
    (hok : ∀ p ∈ ps, (processEntries orgMap putFail p.entry).2 = none)
    (hlink : ∀ p ∈ ps, p.link ≠ []) :
    (runPages orgMap putFail (ps.map Option.some)).2.2 = none
    ∧ processedPages orgMap putFail ps <+: ps
    ∧ (∀ q ∈ processedPages orgMap putFail ps, q.status = 200)
    ∧ List.Chain' (fun a _ => pageHasNext a = true) (processedPages orgMap putFail ps)
    ∧ ((processedPages orgMap putFail ps).length < ps.length →
        ((processedPages orgMap putFail ps = [] ∧
           ∃ p0, ps.head? = some p0 ∧ p0.status ≠ 200)
         ∨ (∃ q, (processedPages orgMap putFail ps).getLast? = some q ∧
             (pageHasNext q = false
              ∨ ∃ pn, ps[(processedPages orgMap putFail ps).length]? = some pn ∧
                  pn.status ≠ 200)))) := by
  simpa only [processedPages] using runPages_spec_aux orgMap putFail ps hok hlink

/-- C5 witness: a two page sequence linked by a next link carrying the
/fhir marker is processed whole, in order. -/
theorem c5_pagination_witness :
    (∀ p ∈ [Page.mk 200 [] [Link.mk "next" "http://x/fhir/Specimen?page=2"],
            Page.mk 200 [] [Link.mk "self" "http://x/fhir/Specimen?page=2"]],
        (processEntries [] (fun _ => false) p.entry).2 = none)
    ∧ (∀ p ∈ [Page.mk 200 [] [Link.mk "next" "http://x/fhir/Specimen?page=2"],
              Page.mk 200 [] [Link.mk "self" "http://x/fhir/Specimen?page=2"]],
        p.link ≠ [])
    ∧ processedPages [] (fun _ => false)
        [Page.mk 200 [] [Link.mk "next" "http://x/fhir/Specimen?page=2"],
         Page.mk 200 [] [Link.mk "self" "http://x/fhir/Specimen?page=2"]] <+:
        [Page.mk 200 [] [Link.mk "next" "http://x/fhir/Specimen?page=2"],
         Page.mk 200 [] [Link.mk "self" "http://x/fhir/Specimen?page=2"]] :=
  ⟨by decide, by decide,
    (c5_pagination [] (fun _ => false)
      [Page.mk 200 [] [Link.mk "next" "http://x/fhir/Specimen?page=2"],
       Page.mk 200 [] [Link.mk "self" "http://x/fhir/Specimen?page=2"]]
      (by decide) (by decide)).2.1⟩

/-- C6: a lookup miss in TYPE_TO_COLLECTION or ORGANIZATION_TO_ID raises a
KeyError that the except ConnectionError handler of src/main.py lines
195-196 does not catch: the run ends in a fault, no PUT is issued for the
failing or later records, and no later page is fetched.  A ConnectionError
raised by a PUT, or by a page GET, is caught and the function returns
normally. -/
theorem c6_fault_handling (orgMap : List (String × String)) (putFail : String → Bool)
    (p : Page) (rest : List (Option Page)) (r : Resource) (rs : List Resource)
    (hst : p.status = 200) (hentry : p.entry = r :: rs) :
    (∀ k, processResource orgMap r = Except.error (Halt.keyError k) →
        update_resources orgMap putFail (Option.some p :: rest) =
          (RunOutcome.fault (Halt.keyError k), [p], []))
    ∧ (∀ rNew, processResource orgMap r = Except.ok (rNew, true) → putFail rNew.id = true →
        (update_resources orgMap putFail (Option.some p :: rest)).1 = RunOutcome.normal)
    ∧ (∀ other : List (Option Page),
        (update_resources orgMap putFail (Option.none :: other)).1 = RunOutcome.normal) := by
  refine ⟨?_, ?_, ?_⟩
  · intro k hk
    have hpe : processEntries orgMap putFail p.entry = ([], some (Halt.keyError k)) := by
      rw [hentry]
      simp only [processEntries, hk]
    simp only [update_resources, runPages, if_pos hst, hpe]
  · intro rNew hok hfail
    have hpe : processEntries orgMap putFail p.entry = ([rNew], some Halt.conn) := by
      rw [hentry]
      simp only [processEntries, hok, if_pos rfl, hfail, if_true]
    simp only [update_resources, runPages, if_pos hst, hpe]
  · intro other
    simp only [update_resources, runPages]

/-- C6 witness: a record whose type code is absent from TYPE_TO_COLLECTION
makes the run end in a KeyError fault with nothing further processed, while
a ConnectionError on the PUT of an updated record, or on the first GET,
ends the run normally. -/
theorem c6_fault_handling_witness :
    (Page.mk 200 [Resource.mk "s1" (TypeConcept.mk "mystery-code")
        (some [Extension.mk custodianUrl "Organization/x"])]
      [Link.mk "self" "http://x/fhir/Specimen"]).status = 200
    ∧ (Page.mk 200 [Resource.mk "s1" (TypeConcept.mk "mystery-code")
          (some [Extension.mk custodianUrl "Organization/x"])]
        [Link.mk "self" "http://x/fhir/Specimen"]).entry =
      [Resource.mk "s1" (TypeConcept.mk "mystery-code")
        (some [Extension.mk custodianUrl "Organization/x"])]
    ∧ processResource [] (Resource.mk "s1" (TypeConcept.mk "mystery-code")
        (some [Extension.mk custodianUrl "Organization/x"])) =
      Except.error (Halt.keyError "mystery-code")
    ∧ update_resources [] (fun _ => true)
        [Option.some (Page.mk 200 [Resource.mk "s1" (TypeConcept.mk "mystery-code")
            (some [Extension.mk custodianUrl "Organization/x"])]
          [Link.mk "self" "http://x/fhir/Specimen"])] =
      (RunOutcome.fault (Halt.keyError "mystery-code"),
       [Page.mk 200 [Resource.mk "s1" (TypeConcept.mk "mystery-code")
           (some [Extension.mk custodianUrl "Organization/x"])]
         [Link.mk "self" "http://x/fhir/Specimen"]], [])
    ∧ (update_resources [] (fun _ => true) [Option.none]).1 = RunOutcome.normal :=
  ⟨rfl, rfl, by decide,
    (c6_fault_handling [] (fun _ => true)
      (Page.mk 200 [Resource.mk "s1" (TypeConcept.mk "mystery-code")
          (some [Extension.mk custodianUrl "Organization/x"])]
        [Link.mk "self" "http://x/fhir/Specimen"]) []
      (Resource.mk "s1" (TypeConcept.mk "mystery-code")
        (some [Extension.mk custodianUrl "Organization/x"])) []
      rfl rfl).1 "mystery-code" (by decide),
    (c6_fault_handling [] (fun _ => true)
      (Page.mk 200 [Resource.mk "s1" (TypeConcept.mk "mystery-code")
          (some [Extension.mk custodianUrl "Organization/x"])]
        [Link.mk "self" "http://x/fhir/Specimen"]) []
      (Resource.mk "s1" (TypeConcept.mk "mystery-code")
        (some [Extension.mk custodianUrl "Organization/x"])) []
      rfl rfl).2.2 []⟩

theorem populate_collections_sublist (total : String → Option Int) :
    List.Sublist (populate_collections total)
      (COLLECTIONS_TO_ADD.map CollectionDescriptor.identifier) := by
  have h : ∀ l : List CollectionDescriptor,
      List.Sublist (l.filterMap fun c =>
        if is_resource_present_in_blaze (total c.identifier) then none
        else some c.identifier) (l.map CollectionDescriptor.identifier) := by
    intro l
    induction l with
    | nil => exact List.Sublist.refl []
    | cons c rest ih =>
      cases hpc : is_resource_present_in_blaze (total c.identifier)
      · simp only [List.filterMap_cons, hpc, Bool.false_eq_true, if_false, List.map_cons]
        exact ih.cons₂ c.identifier
      · simp only [List.filterMap_cons, hpc, if_true, List.map_cons]
        exact ih.cons c.identifier
  exact h COLLECTIONS_TO_ADD

theorem mem_populate_collections (total : String → Option Int) (id : String) :
    id ∈ populate_collections total ↔
      (∃ c ∈ COLLECTIONS_TO_ADD, c.identifier = id)
      ∧ is_resource_present_in_blaze (total id) = false := by
  constructor
  · intro h
    rcases List.mem_filterMap.mp h with ⟨c, hc, heq⟩
    cases hpc : is_resource_present_in_blaze (total c.identifier)
    · rw [hpc] at heq
      simp only [Bool.false_eq_true, if_false, Option.some.injEq] at heq
      refine ⟨⟨c, hc, heq⟩, ?_⟩
      rw [← heq]
      exact hpc
    · rw [hpc] at heq
      simp only [if_true] at heq
      cases heq
  · rintro ⟨⟨c, hc, rfl⟩, hpres⟩
    apply List.mem_filterMap.mpr
    exact ⟨c, hc, by simp [hpres]⟩

/-- C7: populate_collections posts a descriptor exactly when the count the
store returns for its identifier is not positive, and across any sequence
of runs against a store that reports every identifier posted by an earlier
run as present, every collection is created at most once: the concatenated
post lists hold no duplicate. -/
theorem c7_seeding_idempotent (totals : List (String → Option Int))
    (H : ∀ i j : Nat, i < j → ∀ ti tj, totals[i]? = some ti → totals[j]? = some tj →
        ∀ id ∈ populate_collections ti, is_resource_present_in_blaze (tj id) = true) :
    (∀ t ∈ totals, ∀ id ∈ populate_collections t,
        is_resource_present_in_blaze (t id) = false)
    ∧ ((totals.map populate_collections).flatten).Nodup := by
  have hmem : ∀ (t : String → Option Int) (id : String), id ∈ populate_collections t →
      is_resource_present_in_blaze (t id) = false :=
    fun t id h => ((mem_populate_collections t id).mp h).2
  refine ⟨fun t _ id h => hmem t id h, ?_⟩
  rw [List.nodup_flatten]
  constructor
  · intro l hl
    rcases List.mem_map.mp hl with ⟨t, _, rfl⟩
    exact (populate_collections_sublist t).nodup (by decide)
  · rw [List.pairwise_map, List.pairwise_iff_getElem]
    intro i j hi hj hij
    intro id hidi hidj
    have h1 := H i j hij totals[i] totals[j]
      (List.getElem?_eq_getElem hi) (List.getElem?_eq_getElem hj) id hidi
    have h2 := hmem totals[j] id hidj
    rw [h1] at h2
    cases h2

/-- C7 witness: one run against a store reporting every count as zero posts
all five catalog collections, each exactly once. -/
theorem c7_seeding_idempotent_witness :
    (∀ i j : Nat, i < j → ∀ ti tj,
        ([fun _ => (some 0 : Option Int)] : List (String → Option Int))[i]? = some ti →
        ([fun _ => (some 0 : Option Int)] : List (String → Option Int))[j]? = some tj →
        ∀ id ∈ populate_collections ti, is_resource_present_in_blaze (tj id) = true)
    ∧ (([fun _ => (some 0 : Option Int)] : List (String → Option Int)).map
        populate_collections).flatten.Nodup :=
  ⟨by
    intro i j hij ti tj hti htj
    rcases List.getElem?_eq_some.mp htj with ⟨hlen, _⟩
    simp only [List.length_cons, List.length_nil] at hlen
    omega,
   (c7_seeding_idempotent [fun _ => (some 0 : Option Int)] (by
      intro i j hij ti tj hti htj
      rcases List.getElem?_eq_some.mp htj with ⟨hlen, _⟩
      simp only [List.length_cons, List.length_nil] at hlen
      omega)).2⟩

theorem lookupStr_map_set (rest : List (String × String)) (k v key : String) :
    lookupStr (rest.map (fun p => if p.1 = k then (k, v) else p)) key =
      if k = key then (if rest.any (fun p => p.1 = k) then some v else none)
      else lookupStr rest key := by
  induction rest with
  | nil => simp [lookupStr]
  | cons p ps ih =>
    obtain ⟨pk, pv⟩ := p
    simp only [List.map_cons]
    by_cases hp : pk = k
    · have hf : (if ((pk, pv) : String × String).1 = k then (k, v) else (pk, pv)) = (k, v) :=
        if_pos hp
      rw [hf]
      by_cases hk : k = key
      · simp [lookupStr, hk, hp, List.any_cons]
      · simp [lookupStr, hk, hp, ih, List.any_cons]
    · have hf : (if ((pk, pv) : String × String).1 = k then (k, v) else (pk, pv)) = (pk, pv) :=
        if_neg hp
      rw [hf]
      by_cases hpkey : pk = key
      · have hk : ¬k = key := fun hkk => hp (hpkey.trans hkk.symm)
        simp [lookupStr, hpkey, hp, hk]
      · have hd : decide (pk = k) = false := decide_eq_false hp
        simp only [lookupStr, if_neg hpkey, List.any_cons, hd, Bool.false_or]
        exact ih

theorem lookupStr_append_new (m : List (String × String)) (k v key : String)
    (h : m.any (fun p => p.1 = k) = false) :
    lookupStr (m ++ [(k, v)]) key = if k = key then some v else lookupStr m key := by
  induction m with
  | nil => simp [lookupStr]
  | cons p ps ih =>
    obtain ⟨pk, pv⟩ := p
    simp only [List.any_cons, Bool.or_eq_false_iff] at h
    have hpk : ¬pk = k := by simpa using h.1
    by_cases hpkey : pk = key
    · have hk : ¬k = key := fun hkk => hpk (hpkey.trans hkk.symm)
      simp [lookupStr, hpkey, hk]
    · simp [lookupStr, hpkey, ih h.2]

theorem lookupStr_dictInsert (m : List (String × String)) (k v key : String) :
    lookupStr (dictInsert m k v) key = if k = key then some v else lookupStr m key := by
  cases hany : m.any (fun p => p.1 = k)
  · simp only [dictInsert, hany, Bool.false_eq_true, if_false]
    exact lookupStr_append_new m k v key hany
  · simp only [dictInsert, hany, if_true]
    rw [lookupStr_map_set, hany]
    simp

/-- C8: populate_collections_ids inserts, for every organization record in
order, the value of the records first identifier mapped to its store id;
when two records share the same first identifier value the later record
overwrites the earlier, so the final lookup of a key yields the id of the
last record carrying it, and keys no record carries keep their prior
binding. -/
theorem c8_identifier_map (entries : List OrgResource) (m : List (String × String))
    (h : ∀ r ∈ entries, r.identifier ≠ []) :
    ∃ mFinal, populate_collections_ids entries m = Except.ok mFinal
      ∧ ∀ key, lookupStr mFinal key =
          (match (entries.filter fun r => r.identifier.head? == some key).getLast? with
           | some q => some q.id
           | none => lookupStr m key) := by
  induction entries generalizing m with
  | nil => exact ⟨m, rfl, fun key => rfl⟩
  | cons r rest ih =>
    have hr : r.identifier ≠ [] := h r (List.mem_cons_self r rest)
    obtain ⟨k0, hk0⟩ : ∃ k0, r.identifier.head? = some k0 := by
      cases hh : r.identifier.head? with
      | none => exact absurd (List.head?_eq_none_iff.mp hh) hr
      | some k0 => exact ⟨k0, rfl⟩
    have hrest : ∀ q ∈ rest, q.identifier ≠ [] := fun q hq => h q (List.mem_cons_of_mem r hq)
    obtain ⟨mFinal, hrun, hlook⟩ := ih (dictInsert m k0 r.id) hrest
    refine ⟨mFinal, ?_, ?_⟩
    · simp only [populate_collections_ids, hk0]
      exact hrun
    · intro key
      rw [hlook key, List.filter_cons]
      by_cases hkey : k0 = key
      · subst hkey
        have hcond : (r.identifier.head? == some k0) = true := by
          rw [hk0]
          exact beq_self_eq_true _
        rw [if_pos hcond]
        cases hfl : rest.filter (fun q => q.identifier.head? == some k0) with
        | nil =>
          simp [lookupStr_dictInsert]
        | cons q t =>
          rw [List.getLast?_cons_cons]
          cases hgl : (q :: t).getLast? with
          | none => exact absurd (List.getLast?_eq_none_iff.mp hgl) (List.cons_ne_nil q t)
          | some x => rfl
      · have hcond : (r.identifier.head? == some key) = false := by
          rw [hk0]
          simp [hkey]
        rw [if_neg (by simp [hcond])]
        cases hfl : rest.filter (fun q => q.identifier.head? == some key) with
        | nil =>
          simp [lookupStr_dictInsert, hkey]
        | cons q t =>
          cases hgl : (q :: t).getLast? with
          | none => exact absurd (List.getLast?_eq_none_iff.mp hgl) (List.cons_ne_nil q t)
          | some x => rfl

/-- C8 witness: two records sharing the first identifier value idA map idA
to the id of the later record. -/
theorem c8_identifier_map_witness :
    (∀ r ∈ [OrgResource.mk ["idA"] "1", OrgResource.mk ["idA"] "2"], r.identifier ≠ [])
    ∧ (∃ mFinal,
        populate_collections_ids [OrgResource.mk ["idA"] "1", OrgResource.mk ["idA"] "2"] [] =
          Except.ok mFinal
        ∧ ∀ key, lookupStr mFinal key =
            (match ([OrgResource.mk ["idA"] "1", OrgResource.mk ["idA"] "2"].filter
                fun r => r.identifier.head? == some key).getLast? with
             | some q => some q.id
             | none => lookupStr [] key)) :=
  ⟨by decide,
   c8_identifier_map [OrgResource.mk ["idA"] "1", OrgResource.mk ["idA"] "2"] [] (by decide)⟩

theorem probe_loop_all_fail (succ : Nat → Bool) :
    ∀ attempts maxAttempts : Nat,
      (∀ i, attempts ≤ i → i < maxAttempts → succ i = false) →
      probe_loop succ attempts maxAttempts = false
  | attempts, maxAttempts, h => by
    rw [probe_loop]
    by_cases hlt : attempts < maxAttempts
    · rw [if_pos hlt, h attempts (Nat.le_refl _) hlt]
      simp only [Bool.false_eq_true, if_false]
      exact probe_loop_all_fail succ (attempts + 1) maxAttempts
        (fun i hi hilt => h i (Nat.le_of_succ_le hi) hilt)
    · rw [if_neg hlt]
termination_by attempts maxAttempts _ => maxAttempts - attempts
decreasing_by omega

theorem probe_loop_success (succ : Nat → Bool) :
    ∀ attempts maxAttempts k : Nat,
      attempts ≤ k → k < maxAttempts → succ k = true →
      (∀ i, attempts ≤ i → i < k → succ i = false) →
      probe_loop succ attempts maxAttempts = true
  | attempts, maxAttempts, k, hak, hkm, hsk, hprev => by
    have hlt : attempts < maxAttempts := Nat.lt_of_le_of_lt hak hkm
    rw [probe_loop, if_pos hlt]
    by_cases heq : attempts = k
    · subst heq
      rw [hsk]
      simp
    · have hlt2 : attempts < k := Nat.lt_of_le_of_ne hak heq
      rw [hprev attempts (Nat.le_refl _) hlt2]
      simp only [Bool.false_eq_true, if_false]
      exact probe_loop_success succ (attempts + 1) maxAttempts k hlt2 hkm hsk
        (fun i hi hik => hprev i (Nat.le_of_succ_le hi) hik)
termination_by attempts maxAttempts _ _ _ _ _ => maxAttempts - attempts
decreasing_by omega

/-- C9: the availability probe is a total Boolean function of the per
attempt outcomes (every RequestException inside the loop body is caught):
when all of the maxAttempts attempts fail it returns false after exhausting
them, and it returns true as soon as the first successful attempt occurs. -/
theorem c9_probe (succ : Nat → Bool) (maxAttempts : Nat) :
    ((∀ i, i < maxAttempts → succ i = false) →
      is_endpoint_available succ maxAttempts = false)
    ∧ (∀ k, k < maxAttempts → succ k = true → (∀ i, i < k → succ i = false) →
      is_endpoint_available succ maxAttempts = true) := by
  constructor
  · intro h
    exact probe_loop_all_fail succ 0 maxAttempts (fun i _ hi => h i hi)
  · intro k hk hsk hprev
    exact probe_loop_success succ 0 maxAttempts k (Nat.zero_le k) hk hsk
      (fun i _ hik => hprev i hik)

/-- C9 witness: an endpoint answering 503 on all five attempts yields
false, and an endpoint first reachable at the third attempt yields true. -/
theorem c9_probe_witness :
    (∀ i, i < 5 → (fun _ => false) i = false)
    ∧ is_endpoint_available (fun _ => false) 5 = false
    ∧ ((2 : Nat) < 5 ∧ (fun i => i == 2) 2 = true
        ∧ (∀ i, i < 2 → (fun i => i == 2) i = false))
    ∧ is_endpoint_available (fun i => i == 2) 5 = true :=
  ⟨fun _ _ => rfl,
   (c9_probe (fun _ => false) 5).1 (fun _ _ => rfl),
   ⟨by decide, rfl, by decide⟩,
   (c9_probe (fun i => i == 2) 5).2 2 (by decide) rfl (by decide)⟩

/-- C10: a count response without a numeric total field makes
is_resource_present_in_blaze return false (the TypeError from comparing
None with 0 is caught at src/main.py line 105), so populate_collections
treats the descriptor as absent and posts it. -/
theorem c10_missing_total (t : String → Option Int) (c : CollectionDescriptor) :
    is_resource_present_in_blaze none = false
    ∧ (c ∈ COLLECTIONS_TO_ADD → t c.identifier = none →
        c.identifier ∈ populate_collections t) := by
  refine ⟨rfl, ?_⟩
  intro hc ht
  apply List.mem_filterMap.mpr
  exact ⟨c, hc, by simp [ht, is_resource_present_in_blaze]⟩

/-- C10 witness: with every count query returning a body without a total
field, the Blood_samples descriptor is posted. -/
theorem c10_missing_total_witness :
    (CollectionDescriptor.mk "bbmri-eric:ID:CZ_MMCI:collection:Blood_samples" "Blood samples" "BS"
        ∈ COLLECTIONS_TO_ADD)
    ∧ ((fun _ => (none : Option Int)) "bbmri-eric:ID:CZ_MMCI:collection:Blood_samples" =
        none)
    ∧ (CollectionDescriptor.mk "bbmri-eric:ID:CZ_MMCI:collection:Blood_samples"
        "Blood samples" "BS").identifier ∈
        populate_collections (fun _ => (none : Option Int)) :=
  ⟨by decide, rfl,
   (c10_missing_total (fun _ => (none : Option Int))
      (CollectionDescriptor.mk "bbmri-eric:ID:CZ_MMCI:collection:Blood_samples"
        "Blood samples" "BS")).2 (by decide) rfl⟩

end MmciCorrection
